import Mathlib

/-!
Shallow embedding of the core cleanup operations of `src/main.py`
(Superflush - Advanced Account Sign-Out & DNS Cleanup).

The embedded code is the set of core functions `is_admin`, `log_error`,
`flush_dns`, `clear_browser_data` and `sign_out_services`.  The operating
system is modelled by an explicit environment:

* `Env.system` is the value of `platform.system()`;
* `Env.osNameIsNt` is the value of the test `os.name == 'nt'`;
* `Env.adminQuery` models `ctypes.windll.shell32.IsUserAnAdmin()`:
  `none` means the query raises, `some b` means it returns `b`;
* `Env.geteuid` models `os.geteuid` (`none` when the attribute is missing);
* `Env.run` gives the outcome of launching an external command
  (`subprocess.check_call` / `subprocess.run`): an exit code, or a failure
  to launch the command (an `OSError` such as `FileNotFoundError`);
* `Env.removeFail` injects failures of `os.remove` (`some msg` means the
  call raises an `OSError` with message `msg`);
* `Env.listFail` injects failures of `os.listdir`;
* `Env.logFail` injects failures of the `open`/`write` performed by
  `log_error` itself, keyed by the line being appended.

The filesystem is a finite list of nodes `(path, isDir)`, a path being the
list of its components.  `shutil.rmtree(..., ignore_errors=True)` is
modelled as removing the whole subtree and never raising: with
`ignore_errors=True` any internal failure is swallowed and is in no way
observable in the returned errors, which is the behaviour the claims are
about.  Python exceptions are the inductive `PyExc`; code that can raise is
embedded with `Except PyExc`, and every `try/except` handler of the source
appears as a `match` on that value, so the totality of the top-level
functions mirrors the fact that each function's body is wholly enclosed in
its handler.  Attempted external-command launches are collected in
`invoked`.

Logging: `log_error` opens the log file for append and writes a line, and
that open/write can itself raise; in the source it is called unguarded
inside each `except` handler, so a failing log write propagates past the
operation's boundary.  The operations are therefore embedded twice: the
plain functions (`flush_dns`, `clear_browser_data`, `sign_out_services`)
describe the structured result returned when the log writes succeed,
collecting the written lines in their `logged` field, while the
`_checked` variants keep the write's own fallibility (injected through
`Env.logFail`) and so return `Except.error` exactly when a log write
inside a handler raises and escapes the function.
-/

namespace Superflush

/-- A filesystem path, as the list of its components. -/
abbrev Path := List String

/-- Python exceptions raised by the embedded code, tagged with their class.
`calledProcessError` is raised by `subprocess.check_call` on a nonzero
exit status; `osError` covers launch failures and filesystem faults;
the spec's error kinds map onto these classes (`PermissionDenied` is
`PermissionError`, `UnsupportedPlatform` is the `RuntimeError` branch). -/
inductive PyExc where
  | permissionError (msg : String)
  | runtimeError (msg : String)
  | calledProcessError (cmd : List String) (code : Nat)
  | osError (msg : String)
deriving DecidableEq, Repr

/-- Python list repr of a command, used in `CalledProcessError` messages
(single quotes of the Python repr omitted). -/
def pyListRepr (xs : List String) : String :=
  "[" ++ String.intercalate ", " xs ++ "]"

/-- The message `str(e)` of an exception. -/
def PyExc.toMessage : PyExc → String
  | .permissionError msg => msg
  | .runtimeError msg => msg
  | .calledProcessError cmd code =>
      "Command " ++ pyListRepr cmd ++ " returned non-zero exit status "
        ++ toString code ++ "."
  | .osError msg => msg

/-- Outcome of launching an external command. -/
inductive CmdOutcome where
  | exit (code : Nat)
  | launchFail (msg : String)
deriving DecidableEq, Repr

/-- The filesystem: the finite list of existing nodes, each a path together
with a flag telling whether it is a directory. -/
structure FS where
  nodes : List (Path × Bool)
deriving DecidableEq, Repr

/-- Boolean path-prefix test: `isPre p q` holds when every component of `p`
is an initial component of `q` (so `q` is `p` itself or lies under `p`). -/
def isPre : Path → Path → Bool
  | [], _ => true
  | _ :: _, [] => false
  | a :: as, b :: bs => a == b && isPre as bs

/-- `os.path.exists`. -/
def FS.pathExists (fs : FS) (p : Path) : Bool :=
  fs.nodes.any (fun n => decide (n.1 = p))

/-- `os.path.isdir`. -/
def FS.isDir (fs : FS) (p : Path) : Bool :=
  fs.nodes.any (fun n => decide (n.1 = p) && n.2)

/-- `os.remove` (the successful case): the single node at `p` disappears. -/
def FS.remove (fs : FS) (p : Path) : FS :=
  ⟨fs.nodes.filter (fun n => !decide (n.1 = p))⟩

/-- `shutil.rmtree(p, ignore_errors=True)`: every node at or under `p`
disappears; never raises. -/
def FS.rmtree (fs : FS) (p : Path) : FS :=
  ⟨fs.nodes.filter (fun n => !isPre p n.1)⟩

/-- `os.listdir p` (the successful case): the final components of the nodes
lying directly under `p`. -/
def FS.childNames (fs : FS) (p : Path) : List String :=
  fs.nodes.filterMap (fun n =>
    if n.1.length = p.length + 1 ∧ n.1.take p.length = p then n.1.getLast? else none)

/-- The modelled state of the operating system, including failure
injections for the fallible primitives. -/
structure Env where
  system : String
  osNameIsNt : Bool
  adminQuery : Option Bool
  geteuid : Option Nat
  run : List String → CmdOutcome
  removeFail : Path → Option String
  listFail : Path → Option String
  logFail : String → Option String

/-! ## Configuration (`BROWSER_PROFILES`, `GIT_DESKTOP_CREDENTIALS`) -/

/-- Profile path configured for chrome. -/
def chromePath : Path :=
  ["~", "AppData", "Local", "Google", "Chrome", "User Data", "Default"]

/-- Profile path configured for edge. -/
def edgePath : Path :=
  ["~", "AppData", "Local", "Microsoft", "Edge", "User Data", "Default"]

/-- Profile path configured for firefox. -/
def firefoxPath : Path :=
  ["~", "AppData", "Roaming", "Mozilla", "Firefox", "Profiles"]

/-- `BROWSER_PROFILES`, in the dict's insertion (iteration) order. -/
def BROWSER_PROFILES : List (String × Path) :=
  [("chrome", chromePath), ("edge", edgePath), ("firefox", firefoxPath)]

/-- `GIT_DESKTOP_CREDENTIALS`. -/
def GIT_DESKTOP_CREDENTIALS : Path := ["~", "AppData", "Roaming", "GitHub Desktop"]

/-- The fixed artifact entries deleted under each profile path. -/
def artifactEntries : List String := ["History", "Cookies", "Login Data", "Cache"]

/-! ## `is_admin` -/

/-- `is_admin()`: on `os.name == 'nt'` the `IsUserAnAdmin` query, any
failure of which (`adminQuery = none`) yields `False`; otherwise
`os.geteuid() == 0` when `geteuid` exists, else `False`. -/
def is_admin (env : Env) : Bool :=
  if env.osNameIsNt then
    match env.adminQuery with
    | some b => b
    | none => false
  else
    match env.geteuid with
    | some u => decide (u = 0)
    | none => false

/-! ## `flush_dns` -/

/-- `subprocess.check_call`: raises `CalledProcessError` on a nonzero exit
status and `OSError` on a launch failure. -/
def check_call (env : Env) (cmd : List String) : Except PyExc Unit :=
  match env.run cmd with
  | .exit code => if code = 0 then .ok () else .error (.calledProcessError cmd code)
  | .launchFail msg => .error (.osError msg)

/-- The message of the `PermissionError` raised by `flush_dns` on Windows
without elevation. -/
def adminRequiredMsg : String :=
  "Administrator privileges required to flush DNS on Windows."

/-- The body of the `try` block of `flush_dns`: the dispatch on
`platform.system()`, paired with the list of attempted command launches. -/
def flushBody (env : Env) : Except PyExc Unit × List (List String) :=
  if env.system = "Windows" then
    if is_admin env then
      (check_call env ["ipconfig", "/flushdns"], [["ipconfig", "/flushdns"]])
    else
      (.error (.permissionError adminRequiredMsg), [])
  else if env.system = "Linux" then
    (check_call env ["systemd-resolve", "--flush-caches"],
     [["systemd-resolve", "--flush-caches"]])
  else if env.system = "Darwin" then
    match check_call env ["dscacheutil", "-flushcache"] with
    | .error exc => (.error exc, [["dscacheutil", "-flushcache"]])
    | .ok _ =>
        (check_call env ["killall", "-HUP", "mDNSResponder"],
         [["dscacheutil", "-flushcache"], ["killall", "-HUP", "mDNSResponder"]])
  else
    (.error (.runtimeError ("Unsupported OS: " ++ env.system)), [])

/-- The structured result of `flush_dns`: the returned pair `(ok, msg)`,
the class of the exception caught by the handler (if any), the attempted
command launches, and the lines appended to the log. -/
structure FlushResult where
  ok : Bool
  msg : String
  caught : Option PyExc
  invoked : List (List String)
  logged : List String
deriving DecidableEq, Repr

/-- `flush_dns()`: the `try` body, with the `except Exception` handler
logging `"DNS flush error: {e}"` and returning `(False, str(e))`. -/
def flush_dns (env : Env) : FlushResult :=
  match flushBody env with
  | (.ok _, inv) =>
      { ok := true, msg := "DNS cache flushed successfully.",
        caught := none, invoked := inv, logged := [] }
  | (.error exc, inv) =>
      { ok := false, msg := exc.toMessage, caught := some exc, invoked := inv,
        logged := ["DNS flush error: " ++ exc.toMessage] }

/-! ## `clear_browser_data` -/

/-- A filesystem mutation actually performed. -/
inductive FSOp where
  | removeFile (p : Path)
  | rmtree (p : Path)
deriving DecidableEq, Repr

/-- The path a mutation acts on. -/
def FSOp.target : FSOp → Path
  | .removeFile p => p
  | .rmtree p => p

/-- Outcome of processing one browser: the error appended for it (if its
per-browser handler caught an exception), the filesystem afterwards, and
the mutations performed. -/
structure StepOut where
  err : Option String
  fs : FS
  ops : List FSOp
deriving Repr

/-- The inner loop of `clear_browser_data` over the four artifact entries:
an existing directory entry is `rmtree`d (best effort, never raises), an
existing file entry is `os.remove`d, whose failure raises and aborts the
remaining entries of this browser. -/
def clearEntries (env : Env) (fs : FS) (path : Path) : List String → StepOut
  | [] => ⟨none, fs, []⟩
  | e :: rest =>
    let target := path ++ [e]
    if fs.pathExists target then
      if fs.isDir target then
        let r := clearEntries env (fs.rmtree target) path rest
        ⟨r.err, r.fs, .rmtree target :: r.ops⟩
      else
        match env.removeFail target with
        | some msg => ⟨some msg, fs, []⟩
        | none =>
          let r := clearEntries env (fs.remove target) path rest
          ⟨r.err, r.fs, .removeFile target :: r.ops⟩
    else
      clearEntries env fs path rest

/-- The firefox-only sweep: `shutil.rmtree` of each entry listed directly
under the profile root (best effort, never raises). -/
def rmtreeAll (fs : FS) (path : Path) : List String → FS × List FSOp
  | [] => (fs, [])
  | c :: rest =>
    let r := rmtreeAll (fs.rmtree (path ++ [c])) path rest
    (r.1, .rmtree (path ++ [c]) :: r.2)

/-- Processing of a single browser of `BROWSER_PROFILES`: skipped when its
path does not exist; otherwise the artifact entries are cleared and, for
the firefox entry, every listed profile folder is removed wholesale; any
exception is caught and rendered as `"{name}: {detail}"`. -/
def processBrowser (env : Env) (fs : FS) (name : String) (path : Path) : StepOut :=
  if fs.pathExists path then
    let r := clearEntries env fs path artifactEntries
    match r.err with
    | some msg => ⟨some (name ++ ": " ++ msg), r.fs, r.ops⟩
    | none =>
      if name = "firefox" then
        match env.listFail path with
        | some msg => ⟨some (name ++ ": " ++ msg), r.fs, r.ops⟩
        | none =>
          let s := rmtreeAll r.fs path (r.fs.childNames path)
          ⟨none, s.1, r.ops ++ s.2⟩
      else
        ⟨none, r.fs, r.ops⟩
  else
    ⟨none, fs, []⟩

/-- The aggregated result of `clear_browser_data`: the returned error list,
the mutations performed, the log lines, and the final filesystem. -/
structure ClearResult where
  errors : List String
  ops : List FSOp
  logged : List String
  fs : FS
deriving Repr

/-- The loop of `clear_browser_data` over the configured browsers. -/
def clearLoop (env : Env) : List (String × Path) → FS → ClearResult
  | [], fs => ⟨[], [], [], fs⟩
  | (name, path) :: rest, fs =>
    let r := processBrowser env fs name path
    let t := clearLoop env rest r.fs
    ⟨r.err.toList ++ t.errors, r.ops ++ t.ops, r.err.toList ++ t.logged, t.fs⟩

/-- `clear_browser_data()`. -/
def clear_browser_data (env : Env) (fs : FS) : ClearResult :=
  clearLoop env BROWSER_PROFILES fs

/-- The per-browser outcomes of one run of `clear_browser_data`, in the
order the browsers are processed (used to attribute errors and mutations
to individual browsers). -/
def clearLoopSteps (env : Env) : List (String × Path) → FS → List StepOut
  | [], _ => []
  | (name, path) :: rest, fs =>
    let r := processBrowser env fs name path
    r :: clearLoopSteps env rest r.fs

/-- Flattening of the optional per-item errors into the returned list. -/
def optionErrors : List (Option String) → List String
  | [] => []
  | none :: rest => optionErrors rest
  | some s :: rest => s :: optionErrors rest

/-! ## `sign_out_services` -/

/-- The GitHub Desktop credential file. -/
def credFile : Path := GIT_DESKTOP_CREDENTIALS ++ ["git-credential-desktop.json"]

/-- The generic credential-store target identifiers. -/
def credTargets : List String := ["git:", "github", "chrome", "edge"]

/-- The `cmdkey` deletion command for one target identifier. -/
def cmdFor (t : String) : List String := ["cmdkey", "/delete", t]

/-- Step 1 of `sign_out_services`: delete the GitHub Desktop credential
file if it exists; a failure is caught and rendered as
`"GitHub Desktop: {detail}"`. -/
def signOutStep1 (env : Env) (fs : FS) : Option String × FS × List FSOp :=
  if fs.pathExists credFile then
    match env.removeFail credFile with
    | some msg => (some ("GitHub Desktop: " ++ msg), fs, [])
    | none => (none, fs.remove credFile, [.removeFile credFile])
  else
    (none, fs, [])

/-- The loop of step 2 over the credential-store targets: `subprocess.run`
per target, exit status ignored; a launch failure raises, aborting the
remaining targets.  Returns the raised message (if any) and the attempted
launches. -/
def runCmdkeyLoop (env : Env) : List String → Option String × List (List String)
  | [] => (none, [])
  | t :: rest =>
    match env.run (cmdFor t) with
    | .launchFail msg => (some msg, [cmdFor t])
    | .exit _ =>
      let r := runCmdkeyLoop env rest
      (r.1, cmdFor t :: r.2)

/-- Step 2 of `sign_out_services`: on `os.name == 'nt'` only, run the
credential-store deletions; a caught launch failure is rendered as
`"Windows Credentials: {detail}"`. -/
def signOutStep2 (env : Env) : Option String × List (List String) :=
  if env.osNameIsNt then
    match runCmdkeyLoop env credTargets with
    | (some msg, inv) => (some ("Windows Credentials: " ++ msg), inv)
    | (none, inv) => (none, inv)
  else
    (none, [])

/-- The structured result of `sign_out_services`. -/
structure SignOutResult where
  errors : List String
  invoked : List (List String)
  ops : List FSOp
  logged : List String
  fs : FS
deriving Repr

/-- `sign_out_services()`: step 1 then step 2, each under its own handler,
every caught error both logged and appended to the returned list. -/
def sign_out_services (env : Env) (fs : FS) : SignOutResult :=
  let s1 := signOutStep1 env fs
  let s2 := signOutStep2 env
  { errors := s1.1.toList ++ s2.1.toList,
    invoked := s2.2,
    ops := s1.2.2,
    logged := s1.1.toList ++ s2.1.toList,
    fs := s1.2.1 }

/-! ## `log_error` and the full, log-fallible semantics

In the source `log_error` appends its message to `superflush.log` through
an `open`/`write` that can itself raise, and every call to it sits
unguarded inside an `except` handler, so a failing log write escapes the
operation.  The `_checked` functions embed the operations with that
fallibility kept. -/

/-- `log_error(msg)`: open the log file for append and write the line.
`Env.logFail` injects a failure of the open/write (`some m` means the call
raises an `OSError` with message `m`). -/
def log_error (env : Env) (line : String) : Except PyExc Unit :=
  match env.logFail line with
  | some m => .error (.osError m)
  | none => .ok ()

/-- The `log_error` call a handler performs when it caught an error
(nothing is logged when there was none). -/
def logOpt (env : Env) : Option String → Except PyExc Unit
  | none => .ok ()
  | some line => log_error env line

/-- `flush_dns()` with the log write's fallibility kept: the handler's
unguarded `log_error` call may itself raise, in which case that exception
propagates past the function's boundary; otherwise the structured pair is
returned. -/
def flush_dns_checked (env : Env) : Except PyExc FlushResult :=
  match flushBody env with
  | (.ok _, inv) =>
      .ok { ok := true, msg := "DNS cache flushed successfully.",
            caught := none, invoked := inv, logged := [] }
  | (.error exc, inv) =>
      match log_error env ("DNS flush error: " ++ exc.toMessage) with
      | .error logexc => .error logexc
      | .ok _ =>
          .ok { ok := false, msg := exc.toMessage, caught := some exc,
                invoked := inv, logged := ["DNS flush error: " ++ exc.toMessage] }

/-- The loop of `clear_browser_data` with the log write's fallibility
kept: each per-browser handler calls `log_error` unguarded before
appending the error, so a failing log write propagates and aborts the
remaining browsers. -/
def clearLoopChecked (env : Env) : List (String × Path) → FS → Except PyExc ClearResult
  | [], fs => .ok ⟨[], [], [], fs⟩
  | (name, path) :: rest, fs =>
    let r := processBrowser env fs name path
    match r.err with
    | none =>
      match clearLoopChecked env rest r.fs with
      | .error exc => .error exc
      | .ok t => .ok ⟨t.errors, r.ops ++ t.ops, t.logged, t.fs⟩
    | some msg =>
      match log_error env msg with
      | .error exc => .error exc
      | .ok _ =>
        match clearLoopChecked env rest r.fs with
        | .error exc => .error exc
        | .ok t => .ok ⟨msg :: t.errors, r.ops ++ t.ops, msg :: t.logged, t.fs⟩

/-- `clear_browser_data()` with the log write's fallibility kept. -/
def clear_browser_data_checked (env : Env) (fs : FS) : Except PyExc ClearResult :=
  clearLoopChecked env BROWSER_PROFILES fs

/-- `sign_out_services()` with the log write's fallibility kept: each
step's handler calls `log_error` unguarded, so a failing log write
propagates; a step-1 log failure also prevents step 2 from running. -/
def sign_out_services_checked (env : Env) (fs : FS) : Except PyExc SignOutResult :=
  let s1 := signOutStep1 env fs
  match logOpt env s1.1 with
  | .error exc => .error exc
  | .ok _ =>
    let s2 := signOutStep2 env
    match logOpt env s2.1 with
    | .error exc => .error exc
    | .ok _ =>
        .ok { errors := s1.1.toList ++ s2.1.toList,
              invoked := s2.2,
              ops := s1.2.2,
              logged := s1.1.toList ++ s2.1.toList,
              fs := s1.2.1 }

/-! ## Auxiliary predicates used to state the claims -/

/-- Whether a command outcome is a failure to launch the command. -/
def CmdOutcome.isLaunchFail : CmdOutcome → Bool
  | .exit _ => false
  | .launchFail _ => true

/-- No node of the filesystem lies directly under `p` (so `os.listdir p`
returns the empty listing). -/
def noChild (fs : FS) (p : Path) : Prop :=
  ∀ n ∈ fs.nodes, ¬(n.1.length = p.length + 1 ∧ n.1.take p.length = p)

/-- A browser's artifacts count as fully cleared in filesystem `fs`: either
its profile path is absent, or every artifact entry under it is absent and,
for the firefox entry, the profile root lists successfully and is empty. -/
def fullyCleared (env : Env) (fs : FS) (name : String) (path : Path) : Prop :=
  fs.pathExists path = false ∨
  ((∀ e ∈ artifactEntries, fs.pathExists (path ++ [e]) = false) ∧
   (name = "firefox" → env.listFail path = none ∧ noChild fs path))

/-! ## Concrete states used by counterexamples and witnesses -/

/-- An empty filesystem. -/
def fsEmpty : FS := ⟨[]⟩

/-- A benign POSIX environment with no injected failures. -/
def envPlain : Env :=
  { system := "Linux", osNameIsNt := false, adminQuery := none, geteuid := some 1000,
    run := fun _ => .exit 0,
    removeFail := fun _ => none, listFail := fun _ => none,
    logFail := fun _ => none }

/-- A Windows environment whose administrator query answers `False`. -/
def envWin0 : Env :=
  { system := "Windows", osNameIsNt := true, adminQuery := some false, geteuid := none,
    run := fun _ => .exit 0,
    removeFail := fun _ => none, listFail := fun _ => none,
    logFail := fun _ => none }

/-- An environment on an unsupported platform. -/
def envBSD : Env :=
  { system := "FreeBSD", osNameIsNt := false, adminQuery := none, geteuid := some 0,
    run := fun _ => .exit 0,
    removeFail := fun _ => none, listFail := fun _ => none,
    logFail := fun _ => none }

/-- An environment in which `os.remove` fails with a distinct message on
each of the chrome `History` and `Cookies` files. -/
def envC4 : Env :=
  { system := "Linux", osNameIsNt := false, adminQuery := none, geteuid := some 1000,
    run := fun _ => .exit 0,
    removeFail := fun p =>
      if p = chromePath ++ ["History"] then some "locked"
      else if p = chromePath ++ ["Cookies"] then some "locked2"
      else none,
    listFail := fun _ => none, logFail := fun _ => none }

/-- A filesystem in which the chrome profile exists and holds `History` and
`Cookies` as regular files. -/
def fsC4 : FS :=
  ⟨[(chromePath, true), (chromePath ++ ["History"], false),
    (chromePath ++ ["Cookies"], false)]⟩

/-- A filesystem in which the chrome profile is absent while the edge
profile exists and holds a `History` file. -/
def fsW5 : FS :=
  ⟨[(edgePath, true), (edgePath ++ ["History"], false)]⟩

/-- A filesystem in which the chrome profile exists and holds a `History`
file. -/
def fsW6 : FS :=
  ⟨[(chromePath, true), (chromePath ++ ["History"], false)]⟩

/-- A Windows environment in which launching `cmdkey` for the first target
fails while every other command launches fine. -/
def envC8 : Env :=
  { system := "Windows", osNameIsNt := true, adminQuery := some true, geteuid := none,
    run := fun cmd => if cmd = cmdFor "git:" then .launchFail "boom" else .exit 0,
    removeFail := fun _ => none, listFail := fun _ => none,
    logFail := fun _ => none }

/-- A Windows environment in which every command launches and exits with a
nonzero status. -/
def envWinOk : Env :=
  { system := "Windows", osNameIsNt := true, adminQuery := some true, geteuid := none,
    run := fun _ => .exit 1,
    removeFail := fun _ => none, listFail := fun _ => none,
    logFail := fun _ => none }

/-- An environment on an unsupported platform in which every write to the
log file fails. -/
def envLogFail : Env :=
  { system := "FreeBSD", osNameIsNt := false, adminQuery := none, geteuid := some 0,
    run := fun _ => .exit 0,
    removeFail := fun _ => none, listFail := fun _ => none,
    logFail := fun _ => some "log write denied" }

/-! ## Monotonicity: the operations only ever remove filesystem nodes -/

theorem remove_below (fs : FS) (p : Path) : ∀ n ∈ (fs.remove p).nodes, n ∈ fs.nodes := by
  intro n hn
  exact (List.mem_filter.mp hn).1

theorem rmtree_below (fs : FS) (p : Path) : ∀ n ∈ (fs.rmtree p).nodes, n ∈ fs.nodes := by
  intro n hn
  exact (List.mem_filter.mp hn).1

theorem clearEntries_below (env : Env) (path : Path) :
    ∀ (es : List String) (fs : FS), ∀ n ∈ (clearEntries env fs path es).fs.nodes, n ∈ fs.nodes := by
  intro es
  induction es with
  | nil => intro fs n hn; exact hn
  | cons e rest ih =>
    intro fs n hn
    by_cases hex : fs.pathExists (path ++ [e]) = true
    · by_cases hd : fs.isDir (path ++ [e]) = true
      · simp only [clearEntries, hex, hd, if_true] at hn
        exact rmtree_below fs (path ++ [e]) n (ih (fs.rmtree (path ++ [e])) n hn)
      · cases hr : env.removeFail (path ++ [e]) with
        | some msg =>
          simp only [clearEntries, hex, hd, hr, if_true, Bool.false_eq_true, if_false] at hn
          exact hn
        | none =>
          simp only [clearEntries, hex, hd, hr, if_true, Bool.false_eq_true, if_false] at hn
          exact remove_below fs (path ++ [e]) n (ih (fs.remove (path ++ [e])) n hn)
    · simp only [clearEntries, hex, Bool.false_eq_true, if_false] at hn
      exact ih fs n hn

theorem rmtreeAll_below (path : Path) :
    ∀ (cs : List String) (fs : FS), ∀ n ∈ (rmtreeAll fs path cs).1.nodes, n ∈ fs.nodes := by
  intro cs
  induction cs with
  | nil => intro fs n hn; exact hn
  | cons c rest ih =>
    intro fs n hn
    simp only [rmtreeAll] at hn
    exact rmtree_below fs (path ++ [c]) n (ih (fs.rmtree (path ++ [c])) n hn)

theorem processBrowser_below (env : Env) (fs : FS) (name : String) (path : Path) :
    ∀ n ∈ (processBrowser env fs name path).fs.nodes, n ∈ fs.nodes := by
  intro n hn
  by_cases hex : fs.pathExists path = true
  · simp only [processBrowser, hex, if_true] at hn
    cases hr : (clearEntries env fs path artifactEntries).err with
    | some msg =>
      rw [hr] at hn
      exact clearEntries_below env path artifactEntries fs n hn
    | none =>
      rw [hr] at hn
      by_cases hf : name = "firefox"
      · cases hl : env.listFail path with
        | some msg =>
          simp only [hf, if_true, hl] at hn
          exact clearEntries_below env path artifactEntries fs n hn
        | none =>
          simp only [hf, if_true, hl] at hn
          exact clearEntries_below env path artifactEntries fs n
            (rmtreeAll_below path _ _ n hn)
      · simp only [hf, if_false] at hn
        exact clearEntries_below env path artifactEntries fs n hn
  · simp only [processBrowser, hex, Bool.false_eq_true, if_false] at hn
    exact hn

theorem below_pathExists_false {fs' fs : FS}
    (hb : ∀ n ∈ fs'.nodes, n ∈ fs.nodes) {p : Path} (h : fs.pathExists p = false) :
    fs'.pathExists p = false := by
  cases hE : fs'.pathExists p with
  | false => rfl
  | true =>
    obtain ⟨n, hn, hnp⟩ := List.any_eq_true.mp hE
    have : fs.pathExists p = true := List.any_eq_true.mpr ⟨n, hb n hn, hnp⟩
    rw [h] at this
    exact absurd this (by simp)

/-! ## Skipping: absent paths are never touched -/

theorem clearEntries_skip (env : Env) (path : Path) :
    ∀ (es : List String) (fs : FS), (∀ e ∈ es, fs.pathExists (path ++ [e]) = false) →
      clearEntries env fs path es = ⟨none, fs, []⟩ := by
  intro es
  induction es with
  | nil => intro fs _; rfl
  | cons e rest ih =>
    intro fs h
    have he : fs.pathExists (path ++ [e]) = false := h e (List.mem_cons_self e rest)
    simp only [clearEntries, he, Bool.false_eq_true, if_false]
    exact ih fs (fun x hx => h x (List.mem_cons_of_mem e hx))

theorem filterMap_none {α β : Type} (f : α → Option β) :
    ∀ l : List α, (∀ a ∈ l, f a = none) → l.filterMap f = [] := by
  intro l h
  induction l with
  | nil => rfl
  | cons a t ih =>
    rw [List.filterMap_cons, h a (List.mem_cons_self a t)]
    exact ih (fun b hb => h b (List.mem_cons_of_mem a hb))

theorem childNames_eq_nil {fs : FS} {p : Path} (h : noChild fs p) :
    fs.childNames p = [] := by
  refine filterMap_none _ fs.nodes (fun n hn => ?_)
  rw [if_neg (h n hn)]

theorem noChild_below {fs' fs : FS} (hb : ∀ n ∈ fs'.nodes, n ∈ fs.nodes) {p : Path}
    (h : noChild fs p) : noChild fs' p :=
  fun n hn => h n (hb n hn)

theorem fullyCleared_below {env : Env} {fs' fs : FS}
    (hb : ∀ n ∈ fs'.nodes, n ∈ fs.nodes) {name : String} {path : Path}
    (h : fullyCleared env fs name path) : fullyCleared env fs' name path := by
  rcases h with h | ⟨hart, hff⟩
  · exact Or.inl (below_pathExists_false hb h)
  · refine Or.inr ⟨fun e he => below_pathExists_false hb (hart e he), fun hn => ?_⟩
    exact ⟨(hff hn).1, noChild_below hb (hff hn).2⟩

theorem processBrowser_absent {env : Env} {fs : FS} {name : String} {path : Path}
    (h : fs.pathExists path = false) : processBrowser env fs name path = ⟨none, fs, []⟩ := by
  simp only [processBrowser, h, Bool.false_eq_true, if_false]

theorem processBrowser_cleared {env : Env} {fs : FS} {name : String} {path : Path}
    (h : fullyCleared env fs name path) :
    processBrowser env fs name path = ⟨none, fs, []⟩ := by
  rcases h with h | ⟨hart, hff⟩
  · exact processBrowser_absent h
  · by_cases hex : fs.pathExists path = true
    · have hce : clearEntries env fs path artifactEntries = ⟨none, fs, []⟩ :=
        clearEntries_skip env path artifactEntries fs hart
      by_cases hf : name = "firefox"
      · have hl : env.listFail path = none := (hff hf).1
        have hcn : fs.childNames path = [] := childNames_eq_nil (hff hf).2
        simp only [processBrowser, hex, if_true, hce, hf, hl, hcn, rmtreeAll,
          List.append_nil]
      · simp only [processBrowser, hex, if_true, hce, hf, if_false]
    · exact processBrowser_absent (by simpa using hex)

/-! ## Attributing the aggregated outputs to the individual browsers -/

theorem clearLoop_errors_eq (env : Env) :
    ∀ (bs : List (String × Path)) (fs : FS),
      (clearLoop env bs fs).errors = optionErrors ((clearLoopSteps env bs fs).map StepOut.err) := by
  intro bs
  induction bs with
  | nil => intro fs; rfl
  | cons b rest ih =>
    intro fs
    obtain ⟨name, path⟩ := b
    simp only [clearLoop, clearLoopSteps, List.map_cons]
    cases (processBrowser env fs name path).err with
    | none => simp only [Option.toList_none, List.nil_append, optionErrors, ih]
    | some s => simp only [Option.toList_some, List.singleton_append, optionErrors, ih]

theorem clearLoop_logged_eq (env : Env) :
    ∀ (bs : List (String × Path)) (fs : FS),
      (clearLoop env bs fs).logged = (clearLoop env bs fs).errors := by
  intro bs
  induction bs with
  | nil => intro fs; rfl
  | cons b rest ih =>
    intro fs
    obtain ⟨name, path⟩ := b
    simp only [clearLoop, ih]

theorem clearLoop_ops_eq (env : Env) :
    ∀ (bs : List (String × Path)) (fs : FS),
      (clearLoop env bs fs).ops
        = ((clearLoopSteps env bs fs).map StepOut.ops).flatten := by
  intro bs
  induction bs with
  | nil => intro fs; rfl
  | cons b rest ih =>
    intro fs
    obtain ⟨name, path⟩ := b
    simp only [clearLoop, clearLoopSteps, List.map_cons, List.flatten_cons, ih]

theorem clearLoopSteps_length (env : Env) :
    ∀ (bs : List (String × Path)) (fs : FS),
      (clearLoopSteps env bs fs).length = bs.length := by
  intro bs
  induction bs with
  | nil => intro fs; rfl
  | cons b rest ih =>
    intro fs
    obtain ⟨name, path⟩ := b
    simp only [clearLoopSteps, List.length_cons, ih]

theorem processBrowser_err_shape {env : Env} {fs : FS} {name : String} {path : Path}
    {s : String} (h : (processBrowser env fs name path).err = some s) :
    ∃ d, s = name ++ ": " ++ d := by
  by_cases hex : fs.pathExists path = true
  · simp only [processBrowser, hex, if_true] at h
    cases hr : (clearEntries env fs path artifactEntries).err with
    | some msg =>
      rw [hr] at h
      exact ⟨msg, (Option.some_inj.mp h).symm⟩
    | none =>
      rw [hr] at h
      by_cases hf : name = "firefox"
      · subst hf
        cases hl : env.listFail path with
        | some msg =>
          simp only [if_pos rfl, hl] at h
          exact ⟨msg, (Option.some_inj.mp h).symm⟩
        | none =>
          simp only [if_pos rfl, hl] at h
          simp at h
      · simp only [if_neg hf] at h
        simp at h
  · rw [processBrowser_absent (by simpa using hex)] at h
    exact absurd h (by simp)

theorem steps_err_shape (env : Env) :
    ∀ (bs : List (String × Path)) (fs : FS),
      ∀ x ∈ bs.zip (clearLoopSteps env bs fs), ∀ s, x.2.err = some s →
        ∃ d, s = x.1.1 ++ ": " ++ d := by
  intro bs
  induction bs with
  | nil => intro fs x hx; simp [clearLoopSteps] at hx
  | cons b rest ih =>
    intro fs x hx s hs
    obtain ⟨name, path⟩ := b
    simp only [clearLoopSteps, List.zip_cons_cons, List.mem_cons] at hx
    rcases hx with hx | hx
    · subst hx
      exact processBrowser_err_shape hs
    · exact ih (processBrowser env fs name path).fs x hx s hs

theorem steps_cleared (env : Env) {name : String} {path : Path} :
    ∀ (bs : List (String × Path)) (fs : FS), fullyCleared env fs name path →
      ∀ x ∈ bs.zip (clearLoopSteps env bs fs), x.1 = (name, path) →
        x.2.err = none ∧ x.2.ops = [] := by
  intro bs
  induction bs with
  | nil => intro fs _ x hx; simp [clearLoopSteps] at hx
  | cons b rest ih =>
    intro fs hfc x hx hx1
    obtain ⟨bn, bp⟩ := b
    simp only [clearLoopSteps, List.zip_cons_cons, List.mem_cons] at hx
    rcases hx with hx | hx
    · subst hx
      simp only at hx1
      injection hx1 with h1 h2
      subst h1; subst h2
      rw [processBrowser_cleared hfc]
      exact ⟨rfl, rfl⟩
    · exact ih (processBrowser env fs bn bp).fs
        (fullyCleared_below (processBrowser_below env fs bn bp) hfc) x hx hx1

/-! ## Which paths the mutations act on -/

theorem clearEntries_ops (env : Env) (path : Path) :
    ∀ (es : List String) (fs : FS),
      ∀ op ∈ (clearEntries env fs path es).ops, ∃ x, op.target = path ++ [x] := by
  intro es
  induction es with
  | nil => intro fs op hop; simp [clearEntries] at hop
  | cons e rest ih =>
    intro fs op hop
    by_cases hex : fs.pathExists (path ++ [e]) = true
    · by_cases hd : fs.isDir (path ++ [e]) = true
      · simp only [clearEntries, hex, hd, if_true, List.mem_cons] at hop
        rcases hop with hop | hop
        · exact ⟨e, by rw [hop]; rfl⟩
        · exact ih (fs.rmtree (path ++ [e])) op hop
      · cases hr : env.removeFail (path ++ [e]) with
        | some msg =>
          simp only [clearEntries, hex, hd, hr, if_true, Bool.false_eq_true, if_false] at hop
          simp at hop
        | none =>
          simp only [clearEntries, hex, hd, hr, if_true, Bool.false_eq_true, if_false,
            List.mem_cons] at hop
          rcases hop with hop | hop
          · exact ⟨e, by rw [hop]; rfl⟩
          · exact ih (fs.remove (path ++ [e])) op hop
    · simp only [clearEntries, hex, Bool.false_eq_true, if_false] at hop
      exact ih fs op hop

theorem rmtreeAll_ops (path : Path) :
    ∀ (cs : List String) (fs : FS),
      ∀ op ∈ (rmtreeAll fs path cs).2, ∃ x, op.target = path ++ [x] := by
  intro cs
  induction cs with
  | nil => intro fs op hop; simp [rmtreeAll] at hop
  | cons c rest ih =>
    intro fs op hop
    simp only [rmtreeAll, List.mem_cons] at hop
    rcases hop with hop | hop
    · exact ⟨c, by rw [hop]; rfl⟩
    · exact ih (fs.rmtree (path ++ [c])) op hop

theorem processBrowser_ops (env : Env) (fs : FS) (name : String) (path : Path) :
    ∀ op ∈ (processBrowser env fs name path).ops, ∃ x, op.target = path ++ [x] := by
  intro op hop
  by_cases hex : fs.pathExists path = true
  · simp only [processBrowser, hex, if_true] at hop
    cases hr : (clearEntries env fs path artifactEntries).err with
    | some msg =>
      rw [hr] at hop
      exact clearEntries_ops env path artifactEntries fs op hop
    | none =>
      rw [hr] at hop
      by_cases hf : name = "firefox"
      · subst hf
        cases hl : env.listFail path with
        | some msg =>
          simp only [if_pos rfl, hl] at hop
          exact clearEntries_ops env path artifactEntries fs op hop
        | none =>
          simp only [if_pos rfl, hl] at hop
          rcases List.mem_append.mp hop with hop | hop
          · exact clearEntries_ops env path artifactEntries fs op hop
          · exact rmtreeAll_ops path _ _ op hop
      · simp only [if_neg hf] at hop
        exact clearEntries_ops env path artifactEntries fs op hop
  · rw [processBrowser_absent (by simpa using hex)] at hop
    simp at hop

theorem clearLoop_ops_of_absent (env : Env) {p : Path} :
    ∀ (bs : List (String × Path)) (fs : FS), fs.pathExists p = false →
      ∀ op ∈ (clearLoop env bs fs).ops,
        ∃ q, (∃ nm, (nm, q) ∈ bs) ∧ q ≠ p ∧ ∃ x, op.target = q ++ [x] := by
  intro bs
  induction bs with
  | nil => intro fs _ op hop; simp [clearLoop] at hop
  | cons b rest ih =>
    intro fs habs op hop
    obtain ⟨bn, bp⟩ := b
    by_cases hqp : bp = p
    · subst hqp
      rw [show clearLoop env ((bn, bp) :: rest) fs
            = (let r := processBrowser env fs bn bp
               let t := clearLoop env rest r.fs
               ⟨r.err.toList ++ t.errors, r.ops ++ t.ops, r.err.toList ++ t.logged, t.fs⟩)
          from rfl, processBrowser_absent habs] at hop
      simp only [List.nil_append] at hop
      obtain ⟨q, ⟨nm, hnm⟩, hq⟩ := ih fs habs op hop
      exact ⟨q, ⟨nm, List.mem_cons_of_mem _ hnm⟩, hq⟩
    · simp only [clearLoop, List.mem_append] at hop
      rcases hop with hop | hop
      · obtain ⟨x, hx⟩ := processBrowser_ops env fs bn bp op hop
        exact ⟨bp, ⟨bn, List.mem_cons_self _ _⟩, hqp, x, hx⟩
      · have habs' : (processBrowser env fs bn bp).fs.pathExists p = false :=
          below_pathExists_false (processBrowser_below env fs bn bp) habs
        obtain ⟨q, ⟨nm, hnm⟩, hq⟩ := ih (processBrowser env fs bn bp).fs habs' op hop
        exact ⟨q, ⟨nm, List.mem_cons_of_mem _ hnm⟩, hq⟩

/-! ## Facts about the path-prefix test -/

theorem isPre_append_right (q : Path) : ∀ r : Path, isPre q (q ++ r) = true := by
  induction q with
  | nil => intro r; rfl
  | cons a as ih => intro r; simp [isPre, ih r]

theorem isPre_total : ∀ (l p q : Path), isPre p l = true → isPre q l = true →
    isPre p q = true ∨ isPre q p = true := by
  intro l
  induction l with
  | nil =>
    intro p q hp hq
    cases p with
    | nil => exact Or.inl rfl
    | cons a as => exact absurd hp (by simp [isPre])
  | cons a l ih =>
    intro p q hp hq
    cases p with
    | nil => exact Or.inl rfl
    | cons x xs =>
      cases q with
      | nil => exact Or.inr rfl
      | cons y ys =>
        simp only [isPre, Bool.and_eq_true, beq_iff_eq] at hp hq
        rcases ih xs ys hp.2 hq.2 with h | h
        · exact Or.inl (by simp [isPre, hp.1, hq.1, h])
        · exact Or.inr (by simp [isPre, hp.1, hq.1, h])

theorem not_isPre_under {p q : Path} (x : String)
    (h1 : isPre p q = false) (h2 : isPre q p = false) : isPre p (q ++ [x]) = false := by
  cases hE : isPre p (q ++ [x]) with
  | false => rfl
  | true =>
    rcases isPre_total (q ++ [x]) p q hE (isPre_append_right q [x]) with h | h
    · rw [h] at h1; exact absurd h1 (by simp)
    · rw [h] at h2; exact absurd h2 (by simp)

/-! ## Facts about `sign_out_services` -/

theorem runCmdkeyLoop_ok (env : Env) :
    ∀ ts : List String, (∀ t ∈ ts, (env.run (cmdFor t)).isLaunchFail = false) →
      runCmdkeyLoop env ts = (none, ts.map cmdFor) := by
  intro ts
  induction ts with
  | nil => intro _; rfl
  | cons t rest ih =>
    intro h
    cases hr : env.run (cmdFor t) with
    | launchFail msg =>
      have := h t (List.mem_cons_self t rest)
      rw [hr] at this
      exact absurd this (by simp [CmdOutcome.isLaunchFail])
    | exit code =>
      simp only [runCmdkeyLoop, hr, List.map_cons,
        ih (fun x hx => h x (List.mem_cons_of_mem t hx))]

theorem runCmdkeyLoop_fail (env : Env) :
    ∀ (ts : List String) (msg : String) (inv : List (List String)),
      runCmdkeyLoop env ts = (some msg, inv) →
        ∃ t ∈ ts, env.run (cmdFor t) = .launchFail msg := by
  intro ts
  induction ts with
  | nil => intro msg inv h; exact absurd h (by simp [runCmdkeyLoop])
  | cons t rest ih =>
    intro msg inv h
    cases hr : env.run (cmdFor t) with
    | launchFail m =>
      simp only [runCmdkeyLoop, hr] at h
      obtain ⟨h1, _⟩ := Prod.mk.injEq .. ▸ h
      exact ⟨t, List.mem_cons_self t rest,
        by rw [hr, Option.some_inj.mp h1]⟩
    | exit code =>
      simp only [runCmdkeyLoop, hr, Prod.mk.injEq] at h
      obtain ⟨t', ht', hrun⟩ := ih msg (runCmdkeyLoop env rest).2
        (by rw [← h.1])
      exact ⟨t', List.mem_cons_of_mem t ht', hrun⟩

theorem signOutStep1_shape (env : Env) (fs : FS) :
    ∀ s, (signOutStep1 env fs).1 = some s → ∃ d, s = "GitHub Desktop: " ++ d := by
  intro s hs
  by_cases hex : fs.pathExists credFile = true
  · cases hr : env.removeFail credFile with
    | some msg =>
      simp only [signOutStep1, hex, hr, if_true] at hs
      exact ⟨msg, (Option.some_inj.mp hs).symm⟩
    | none =>
      simp only [signOutStep1, hex, hr, if_true] at hs
      exact absurd hs (by simp)
  · simp only [signOutStep1, hex, Bool.false_eq_true, if_false] at hs
    exact absurd hs (by simp)

theorem signOutStep2_shape (env : Env) :
    ∀ s, (signOutStep2 env).1 = some s → ∃ d, s = "Windows Credentials: " ++ d := by
  intro s hs
  by_cases hnt : env.osNameIsNt = true
  · simp only [signOutStep2, hnt, if_true] at hs
    cases hL : runCmdkeyLoop env credTargets with
    | mk o inv =>
      cases o with
      | some msg =>
        rw [hL] at hs
        exact ⟨msg, (Option.some_inj.mp hs).symm⟩
      | none =>
        rw [hL] at hs
        exact absurd hs (by simp)
  · simp only [signOutStep2, hnt, Bool.false_eq_true, if_false] at hs
    exact absurd hs (by simp)

theorem option_toList_length {α : Type} (o : Option α) : o.toList.length ≤ 1 := by
  cases o <;> simp

/-! ## Relating the log-fallible semantics to the plain results -/

theorem logOpt_ok (env : Env) (hlog : ∀ s, env.logFail s = none) :
    ∀ o : Option String, logOpt env o = .ok () := by
  intro o
  cases o with
  | none => rfl
  | some line => simp [logOpt, log_error, hlog line]

theorem logOpt_escape (env : Env) :
    ∀ (o : Option String) (e : PyExc), logOpt env o = .error e →
      ∃ s m, env.logFail s = some m ∧ e = .osError m := by
  intro o e h
  cases o with
  | none => exact absurd h (by simp [logOpt])
  | some line =>
    cases hl : env.logFail line with
    | some m =>
      simp only [logOpt, log_error, hl, Except.error.injEq] at h
      exact ⟨line, m, hl, h.symm⟩
    | none => simp [logOpt, log_error, hl] at h

theorem flush_dns_checked_agree (env : Env) (hlog : ∀ s, env.logFail s = none) :
    flush_dns_checked env = .ok (flush_dns env) := by
  rcases hb : flushBody env with ⟨ex, inv⟩
  cases ex with
  | ok u => simp [flush_dns_checked, flush_dns, hb]
  | error exc => simp [flush_dns_checked, flush_dns, hb, log_error, hlog]

theorem flush_dns_checked_escape (env : Env) :
    ∀ e, flush_dns_checked env = .error e →
      ∃ s m, env.logFail s = some m ∧ e = .osError m := by
  intro e he
  rcases hb : flushBody env with ⟨ex, inv⟩
  cases ex with
  | ok u => simp [flush_dns_checked, hb] at he
  | error exc =>
    cases hl : env.logFail ("DNS flush error: " ++ exc.toMessage) with
    | some m =>
      simp only [flush_dns_checked, hb, log_error, hl, Except.error.injEq] at he
      exact ⟨"DNS flush error: " ++ exc.toMessage, m, hl, he.symm⟩
    | none => simp [flush_dns_checked, hb, log_error, hl] at he

theorem clearLoopChecked_agree (env : Env) (hlog : ∀ s, env.logFail s = none) :
    ∀ (bs : List (String × Path)) (fs : FS),
      clearLoopChecked env bs fs = .ok (clearLoop env bs fs) := by
  intro bs
  induction bs with
  | nil => intro fs; rfl
  | cons b rest ih =>
    intro fs
    obtain ⟨name, path⟩ := b
    cases hr : (processBrowser env fs name path).err with
    | none => simp [clearLoopChecked, clearLoop, hr, ih]
    | some msg => simp [clearLoopChecked, clearLoop, hr, log_error, hlog, ih]

theorem clearLoopChecked_escape (env : Env) :
    ∀ (bs : List (String × Path)) (fs : FS) (e : PyExc),
      clearLoopChecked env bs fs = .error e →
        ∃ s m, env.logFail s = some m ∧ e = .osError m := by
  intro bs
  induction bs with
  | nil => intro fs e h; exact absurd h (by simp [clearLoopChecked])
  | cons b rest ih =>
    intro fs e h
    obtain ⟨name, path⟩ := b
    cases hr : (processBrowser env fs name path).err with
    | none =>
      cases hrec : clearLoopChecked env rest (processBrowser env fs name path).fs with
      | error exc =>
        simp only [clearLoopChecked, hr, hrec, Except.error.injEq] at h
        exact h ▸ ih (processBrowser env fs name path).fs exc hrec
      | ok t =>
        simp [clearLoopChecked, hr, hrec] at h
    | some msg =>
      cases hl : env.logFail msg with
      | some m =>
        simp only [clearLoopChecked, hr, log_error, hl, Except.error.injEq] at h
        exact ⟨msg, m, hl, h.symm⟩
      | none =>
        cases hrec : clearLoopChecked env rest (processBrowser env fs name path).fs with
        | error exc =>
          simp only [clearLoopChecked, hr, log_error, hl, hrec, Except.error.injEq] at h
          exact h ▸ ih (processBrowser env fs name path).fs exc hrec
        | ok t =>
          simp [clearLoopChecked, hr, log_error, hl, hrec] at h

theorem sign_out_checked_agree (env : Env) (fs : FS)
    (hlog : ∀ s, env.logFail s = none) :
    sign_out_services_checked env fs = .ok (sign_out_services env fs) := by
  simp [sign_out_services_checked, sign_out_services, logOpt_ok env hlog]

theorem sign_out_checked_escape (env : Env) (fs : FS) :
    ∀ e, sign_out_services_checked env fs = .error e →
      ∃ s m, env.logFail s = some m ∧ e = .osError m := by
  intro e h
  cases h1 : logOpt env (signOutStep1 env fs).1 with
  | error exc =>
    simp only [sign_out_services_checked, h1, Except.error.injEq] at h
    exact h ▸ logOpt_escape env (signOutStep1 env fs).1 exc h1
  | ok u =>
    cases h2 : logOpt env (signOutStep2 env).1 with
    | error exc =>
      simp only [sign_out_services_checked, h1, h2, Except.error.injEq] at h
      exact h ▸ logOpt_escape env (signOutStep2 env).1 exc h2
    | ok u2 =>
      simp [sign_out_services_checked, h1, h2] at h

theorem flush_logged_eq (env : Env) :
    (flush_dns env).logged
      = (if (flush_dns env).ok then []
         else ["DNS flush error: " ++ (flush_dns env).msg]) := by
  rcases h : flushBody env with ⟨e, inv⟩
  cases e with
  | ok u => simp [flush_dns, h]
  | error exc => simp [flush_dns, h]

/-! ## The claims -/

/-- C1, counterexample: the handlers log through `log_error`, whose
`open`/`write` is itself unguarded; when the log write fails, that
exception propagates past the operation's boundary instead of the
structured result being returned.  Concretely: on an unsupported platform
whose log sink rejects every write, `flush_dns` takes its error path (the
plain result has `ok = false` and would log the failure), and the call
propagates the `OSError` of the failed log write. -/
theorem c1_counterexample :
    flush_dns_checked envLogFail = .error (.osError "log write denied") ∧
    (flush_dns envLogFail).ok = false ∧
    envLogFail.logFail ("DNS flush error: " ++ (flush_dns envLogFail).msg)
      = some "log write denied" := by
  refine ⟨?_, ?_, ?_⟩ <;> rfl

/-- C1, amended: the only exception a core operation can propagate past
its own boundary is a failure of the unguarded log write performed inside
its handlers.  Whenever every log write succeeds, each of `flush_dns`,
`clear_browser_data` and `sign_out_services` returns its structured
result, with every reported failure logged (`flush_dns` logs
`"DNS flush error: {e}"` exactly when it fails, and the two collecting
operations log exactly the error strings they return); and conversely any
propagated exception is the `OSError` of a failed log write. -/
theorem c1_log_confined (env : Env) (fs : FS) :
    ((∀ s, env.logFail s = none) →
       flush_dns_checked env = .ok (flush_dns env) ∧
       clear_browser_data_checked env fs = .ok (clear_browser_data env fs) ∧
       sign_out_services_checked env fs = .ok (sign_out_services env fs) ∧
       (flush_dns env).logged
         = (if (flush_dns env).ok then []
            else ["DNS flush error: " ++ (flush_dns env).msg]) ∧
       (clear_browser_data env fs).logged = (clear_browser_data env fs).errors ∧
       (sign_out_services env fs).logged = (sign_out_services env fs).errors)
    ∧ (∀ e, flush_dns_checked env = .error e →
         ∃ s m, env.logFail s = some m ∧ e = .osError m)
    ∧ (∀ e, clear_browser_data_checked env fs = .error e →
         ∃ s m, env.logFail s = some m ∧ e = .osError m)
    ∧ (∀ e, sign_out_services_checked env fs = .error e →
         ∃ s m, env.logFail s = some m ∧ e = .osError m) := by
  refine ⟨fun hlog => ⟨flush_dns_checked_agree env hlog,
      clearLoopChecked_agree env hlog BROWSER_PROFILES fs,
      sign_out_checked_agree env fs hlog,
      flush_logged_eq env,
      clearLoop_logged_eq env BROWSER_PROFILES fs, rfl⟩,
    flush_dns_checked_escape env,
    fun e => clearLoopChecked_escape env BROWSER_PROFILES fs e,
    sign_out_checked_escape env fs⟩

/-- Witness for the amended C1 at a concrete state whose log sink accepts
every write and in which `clear_browser_data` reports (and logs) a
failure. -/
theorem c1_witness :
    flush_dns_checked envC4 = .ok (flush_dns envC4) ∧
    clear_browser_data_checked envC4 fsC4 = .ok (clear_browser_data envC4 fsC4) ∧
    sign_out_services_checked envC4 fsC4 = .ok (sign_out_services envC4 fsC4) ∧
    (flush_dns envC4).logged
      = (if (flush_dns envC4).ok then []
         else ["DNS flush error: " ++ (flush_dns envC4).msg]) ∧
    (clear_browser_data envC4 fsC4).logged = (clear_browser_data envC4 fsC4).errors ∧
    (sign_out_services envC4 fsC4).logged = (sign_out_services envC4 fsC4).errors :=
  (c1_log_confined envC4 fsC4).1 (fun _ => rfl)

/-- C2: on a windows platform without elevation, `flush_dns` fails with the
`PermissionError` (the spec's `PermissionDenied` kind) raised before any
command, so no external command launch is attempted. -/
theorem c2_windows_unelevated (env : Env) (h1 : env.system = "Windows")
    (h2 : is_admin env = false) :
    (flush_dns env).ok = false ∧
    (flush_dns env).caught = some (.permissionError adminRequiredMsg) ∧
    (flush_dns env).invoked = [] := by
  have hb : flushBody env = (.error (.permissionError adminRequiredMsg), []) := by
    simp [flushBody, h1, h2]
  simp [flush_dns, hb]

/-- Witness for C2 at a concrete Windows state whose administrator query
answers `False`. -/
theorem c2_witness :
    envWin0.system = "Windows" ∧ is_admin envWin0 = false ∧
    ((flush_dns envWin0).ok = false ∧
     (flush_dns envWin0).caught = some (.permissionError adminRequiredMsg) ∧
     (flush_dns envWin0).invoked = []) :=
  ⟨by decide, by decide, c2_windows_unelevated envWin0 (by decide) (by decide)⟩

/-- C3: on a platform that is none of Windows, Linux or Darwin, `flush_dns`
fails with the `RuntimeError` (the spec's `UnsupportedPlatform` kind) whose
message contains the detected platform name, and launches no external
command. -/
theorem c3_unsupported_platform (env : Env) (h1 : env.system ≠ "Windows")
    (h2 : env.system ≠ "Linux") (h3 : env.system ≠ "Darwin") :
    (flush_dns env).ok = false ∧
    (flush_dns env).caught = some (.runtimeError ("Unsupported OS: " ++ env.system)) ∧
    (∃ pre suf, (flush_dns env).msg = pre ++ env.system ++ suf) ∧
    (flush_dns env).invoked = [] := by
  have hb : flushBody env
      = (.error (.runtimeError ("Unsupported OS: " ++ env.system)), []) := by
    simp [flushBody, h1, h2, h3]
  refine ⟨?_, ?_, ⟨"Unsupported OS: ", "", ?_⟩, ?_⟩ <;>
    simp [flush_dns, hb, PyExc.toMessage]

/-- Witness for C3 at a concrete BSD state. -/
theorem c3_witness :
    envBSD.system = "FreeBSD" ∧
    ((flush_dns envBSD).ok = false ∧
     (flush_dns envBSD).caught = some (.runtimeError ("Unsupported OS: " ++ envBSD.system)) ∧
     (∃ pre suf, (flush_dns envBSD).msg = pre ++ envBSD.system ++ suf) ∧
     (flush_dns envBSD).invoked = []) :=
  ⟨by decide, c3_unsupported_platform envBSD (by decide) (by decide) (by decide)⟩

/-- C9: `is_admin` is fail-safe: on the windows kind a failing
administrator query yields `false` and a successful one is returned as is;
on POSIX kinds it is true exactly when the effective user id is 0, and
false when no user id is available. -/
theorem c9_is_admin_failsafe (env : Env) :
    (env.osNameIsNt = true → env.adminQuery = none → is_admin env = false)
    ∧ (env.osNameIsNt = true → ∀ b, env.adminQuery = some b → is_admin env = b)
    ∧ (env.osNameIsNt = false → ∀ u, env.geteuid = some u → (is_admin env = true ↔ u = 0))
    ∧ (env.osNameIsNt = false → env.geteuid = none → is_admin env = false) := by
  refine ⟨fun h1 h2 => ?_, fun h1 b h2 => ?_, fun h1 u h2 => ?_, fun h1 h2 => ?_⟩ <;>
    simp [is_admin, h1, h2]

/-- Witness for C9 at a concrete Windows state (query answers `False`) and
a concrete POSIX state (effective user id 1000). -/
theorem c9_witness :
    envWin0.osNameIsNt = true ∧ envWin0.adminQuery = some false ∧
    is_admin envWin0 = false ∧
    envPlain.osNameIsNt = false ∧ envPlain.geteuid = some 1000 ∧
    is_admin envPlain = false := by
  refine ⟨rfl, rfl, (c9_is_admin_failsafe envWin0).2.1 rfl false rfl, rfl, rfl, ?_⟩
  have h := (c9_is_admin_failsafe envPlain).2.2.1 rfl 1000 rfl
  cases hE : is_admin envPlain with
  | false => rfl
  | true => exact absurd (h.mp hE) (by decide)

/-- C4, counterexample: in a state where the chrome profile holds two
regular-file artifacts (`History` and `Cookies`) whose deletions both fail,
`clear_browser_data` returns a single error string — the first failure —
not one error per failed deletion: the per-browser handler aborts the
remaining entries of that browser. -/
theorem c4_counterexample :
    fsC4.pathExists (chromePath ++ ["History"]) = true ∧
    fsC4.isDir (chromePath ++ ["History"]) = false ∧
    envC4.removeFail (chromePath ++ ["History"]) = some "locked" ∧
    fsC4.pathExists (chromePath ++ ["Cookies"]) = true ∧
    fsC4.isDir (chromePath ++ ["Cookies"]) = false ∧
    envC4.removeFail (chromePath ++ ["Cookies"]) = some "locked2" ∧
    (clear_browser_data envC4 fsC4).errors = ["chrome: locked"] ∧
    (clear_browser_data envC4 fsC4).errors.length = 1 := by
  decide

/-- C4, amended: `clear_browser_data` collects at most one error per
browser — the first failing deletion of that browser, formatted
`"{name}: {detail}"` — and continues with the next browser: the returned
sequence is exactly the flattening of one optional error per configured
browser, in order. -/
theorem c4_amended_per_browser (env : Env) (fs : FS) :
    (clear_browser_data env fs).errors
      = optionErrors ((clearLoopSteps env BROWSER_PROFILES fs).map StepOut.err)
    ∧ (clearLoopSteps env BROWSER_PROFILES fs).length = BROWSER_PROFILES.length
    ∧ ∀ x ∈ BROWSER_PROFILES.zip (clearLoopSteps env BROWSER_PROFILES fs),
        ∀ s, x.2.err = some s → ∃ d, s = x.1.1 ++ ": " ++ d :=
  ⟨clearLoop_errors_eq env BROWSER_PROFILES fs,
   clearLoopSteps_length env BROWSER_PROFILES fs,
   steps_err_shape env BROWSER_PROFILES fs⟩

/-- Witness for the amended C4 at the concrete two-failure state. -/
theorem c4_amended_witness :
    (clear_browser_data envC4 fsC4).errors
      = optionErrors ((clearLoopSteps envC4 BROWSER_PROFILES fsC4).map StepOut.err) :=
  (c4_amended_per_browser envC4 fsC4).1

/-- C5: a configured browser whose profile path does not exist contributes
no error and no mutation (its per-browser step yields `none` and an empty
op list), and no mutation of the whole call touches a path at or under
that browser's profile path. -/
theorem c5_missing_profile_untouched (env : Env) (fs : FS) (b : String × Path)
    (hb : b ∈ BROWSER_PROFILES) (habs : fs.pathExists b.2 = false) :
    (∀ x ∈ BROWSER_PROFILES.zip (clearLoopSteps env BROWSER_PROFILES fs),
        x.1 = b → x.2.err = none ∧ x.2.ops = [])
    ∧ ∀ op ∈ (clear_browser_data env fs).ops, isPre b.2 op.target = false := by
  constructor
  · intro x hx hx1
    exact steps_cleared env BROWSER_PROFILES fs
      (show fullyCleared env fs b.1 b.2 from Or.inl habs) x hx (by rw [hx1])
  · intro op hop
    obtain ⟨q, ⟨nm, hnm⟩, hqp, x, hx⟩ :=
      clearLoop_ops_of_absent env BROWSER_PROFILES fs habs op hop
    rw [hx]
    have hq : q = chromePath ∨ q = edgePath ∨ q = firefoxPath := by
      simp only [BROWSER_PROFILES, List.mem_cons, List.not_mem_nil, or_false,
        Prod.mk.injEq] at hnm
      rcases hnm with ⟨_, h⟩ | ⟨_, h⟩ | ⟨_, h⟩ <;> simp [h]
    have hb2 : b.2 = chromePath ∨ b.2 = edgePath ∨ b.2 = firefoxPath := by
      simp only [BROWSER_PROFILES, List.mem_cons, List.not_mem_nil, or_false] at hb
      rcases hb with hb | hb | hb <;> simp [hb]
    rcases hq with hq | hq | hq <;> rcases hb2 with h2 | h2 | h2 <;>
      first
        | exact absurd (hq.trans h2.symm) hqp
        | (rw [hq, h2]; exact not_isPre_under x (by decide) (by decide))

/-- Witness for C5: chrome's profile path is absent while edge's is
present. -/
theorem c5_witness :
    ("chrome", chromePath) ∈ BROWSER_PROFILES ∧
    fsW5.pathExists chromePath = false ∧
    ((∀ x ∈ BROWSER_PROFILES.zip (clearLoopSteps envPlain BROWSER_PROFILES fsW5),
        x.1 = ("chrome", chromePath) → x.2.err = none ∧ x.2.ops = [])
     ∧ ∀ op ∈ (clear_browser_data envPlain fsW5).ops,
         isPre chromePath op.target = false) :=
  ⟨by decide, by decide,
   c5_missing_profile_untouched envPlain fsW5 ("chrome", chromePath)
     (by decide) (by decide)⟩

/-- C6: idempotence of `clear_browser_data` — for any browser whose
artifacts are fully cleared by a first call, an immediately following
second call contributes no error for that browser (its per-browser step in
the second run yields `none`), the second run's error sequence being the
flattening of those per-browser steps. -/
theorem c6_second_run_clean (env : Env) (fs : FS) (b : String × Path)
    (_hb : b ∈ BROWSER_PROFILES)
    (hfc : fullyCleared env (clear_browser_data env fs).fs b.1 b.2) :
    (clear_browser_data env (clear_browser_data env fs).fs).errors
      = optionErrors
          ((clearLoopSteps env BROWSER_PROFILES (clear_browser_data env fs).fs).map
            StepOut.err)
    ∧ ∀ x ∈ BROWSER_PROFILES.zip
          (clearLoopSteps env BROWSER_PROFILES (clear_browser_data env fs).fs),
        x.1 = b → x.2.err = none := by
  refine ⟨clearLoop_errors_eq env BROWSER_PROFILES _, fun x hx hx1 => ?_⟩
  exact (steps_cleared env BROWSER_PROFILES _ hfc x hx (by rw [hx1])).1

/-- Witness for C6: a first run removes chrome's `History` file, after
which chrome is fully cleared and the second run yields no error for it. -/
theorem c6_witness :
    ("chrome", chromePath) ∈ BROWSER_PROFILES ∧
    fullyCleared envPlain (clear_browser_data envPlain fsW6).fs "chrome" chromePath ∧
    ((clear_browser_data envPlain (clear_browser_data envPlain fsW6).fs).errors
      = optionErrors
          ((clearLoopSteps envPlain BROWSER_PROFILES
              (clear_browser_data envPlain fsW6).fs).map StepOut.err)
     ∧ ∀ x ∈ BROWSER_PROFILES.zip
           (clearLoopSteps envPlain BROWSER_PROFILES
             (clear_browser_data envPlain fsW6).fs),
         x.1 = ("chrome", chromePath) → x.2.err = none) :=
  ⟨by decide, by unfold fullyCleared noChild; decide,
   c6_second_run_clean envPlain fsW6 ("chrome", chromePath) (by decide)
     (by unfold fullyCleared noChild; decide)⟩

/-- C7: on a non-windows platform, `sign_out_services` skips the
credential-store step entirely — no command launch is attempted and the
step yields no error — even though the target identifiers are configured. -/
theorem c7_step2_skipped (env : Env) (fs : FS) (h : env.osNameIsNt = false) :
    (sign_out_services env fs).invoked = [] ∧
    signOutStep2 env = (none, []) ∧
    credTargets = ["git:", "github", "chrome", "edge"] := by
  have h2 : signOutStep2 env = (none, []) := by
    simp [signOutStep2, h]
  exact ⟨by simp [sign_out_services, h2], h2, rfl⟩

/-- Witness for C7 at a concrete POSIX state. -/
theorem c7_witness :
    envPlain.osNameIsNt = false ∧
    ((sign_out_services envPlain fsEmpty).invoked = [] ∧
     signOutStep2 envPlain = (none, []) ∧
     credTargets = ["git:", "github", "chrome", "edge"]) :=
  ⟨by decide, c7_step2_skipped envPlain fsEmpty (by decide)⟩

/-- C8, counterexample: on windows, when launching `cmdkey` for the first
target fails, the remaining three identifiers are never attempted, so the
command is not invoked once per configured identifier; the single launch
failure is the only reported error. -/
theorem c8_counterexample :
    envC8.osNameIsNt = true ∧
    credTargets.length = 4 ∧
    (sign_out_services envC8 fsEmpty).invoked.length = 1 ∧
    (sign_out_services envC8 fsEmpty).invoked ≠ credTargets.map cmdFor ∧
    (sign_out_services envC8 fsEmpty).errors = ["Windows Credentials: boom"] := by
  decide

/-- C8, amended: on windows, when every `cmdkey` launch succeeds the
deletion command is invoked exactly once per configured identifier in
order and the step reports no error regardless of exit statuses; a launch
failure aborts the remaining identifiers and is the only condition
reported, as `"Windows Credentials: {detail}"`. -/
theorem c8_amended_launch (env : Env) (fs : FS) (hnt : env.osNameIsNt = true) :
    ((∀ t ∈ credTargets, (env.run (cmdFor t)).isLaunchFail = false) →
       (sign_out_services env fs).invoked = credTargets.map cmdFor ∧
       (signOutStep2 env).1 = none)
    ∧ ∀ s inv, signOutStep2 env = (some s, inv) →
        ∃ t ∈ credTargets, ∃ m, env.run (cmdFor t) = .launchFail m ∧
          s = "Windows Credentials: " ++ m := by
  constructor
  · intro hok
    have hL := runCmdkeyLoop_ok env credTargets hok
    have h2 : signOutStep2 env = (none, credTargets.map cmdFor) := by
      simp [signOutStep2, hnt, hL]
    exact ⟨by simp [sign_out_services, h2], by rw [h2]⟩
  · intro s inv h
    cases hL : runCmdkeyLoop env credTargets with
    | mk o i =>
      simp only [signOutStep2, hnt, if_true, hL] at h
      cases o with
      | none => simp at h
      | some m =>
        simp only [Prod.mk.injEq, Option.some_inj] at h
        obtain ⟨t, ht, hrun⟩ := runCmdkeyLoop_fail env credTargets m i hL
        exact ⟨t, ht, m, hrun, h.1.symm⟩

/-- Witness for the amended C8 at a concrete Windows state where every
command launches and exits with status 1. -/
theorem c8_amended_witness :
    envWinOk.osNameIsNt = true ∧
    (∀ t ∈ credTargets, (envWinOk.run (cmdFor t)).isLaunchFail = false) ∧
    ((sign_out_services envWinOk fsEmpty).invoked = credTargets.map cmdFor ∧
     (signOutStep2 envWinOk).1 = none) :=
  ⟨by decide, by decide,
   (c8_amended_launch envWinOk fsEmpty (by decide)).1 (by decide)⟩

/-- C10: `sign_out_services` returns at most two error strings — one
optional error from the credential-file step, prefixed with the service's
name, followed by one optional error from the credential-store step,
prefixed with `"Windows Credentials: "` — each step's body being guarded
by a single handler. -/
theorem c10_at_most_two (env : Env) (fs : FS) :
    ∃ e1 e2 : Option String,
      (sign_out_services env fs).errors = e1.toList ++ e2.toList ∧
      (∀ s, e1 = some s → ∃ d, s = "GitHub Desktop: " ++ d) ∧
      (∀ s, e2 = some s → ∃ d, s = "Windows Credentials: " ++ d) ∧
      (sign_out_services env fs).errors.length ≤ 2 := by
  refine ⟨(signOutStep1 env fs).1, (signOutStep2 env).1, rfl,
    signOutStep1_shape env fs, signOutStep2_shape env, ?_⟩
  have h1 := option_toList_length (signOutStep1 env fs).1
  have h2 := option_toList_length (signOutStep2 env).1
  have hlen : (sign_out_services env fs).errors.length
      = (signOutStep1 env fs).1.toList.length + (signOutStep2 env).1.toList.length := by
    simp [sign_out_services]
  omega

/-- Witness for C10 at the concrete launch-failure state. -/
theorem c10_witness : (sign_out_services envC8 fsEmpty).errors.length ≤ 2 := by
  obtain ⟨e1, e2, _, _, _, h⟩ := c10_at_most_two envC8 fsEmpty
  exact h

end Superflush
